import Mathlib

/-!
Shallow embedding of the fmart package (FamilyMart invoice API client,
`fmart.go`) and proofs about its documented behaviour.

Modelling conventions:
* Go strings are embedded as Lean `String`; Go `len(s)` counts the bytes of
  the UTF-8 encoding of `s`, embedded as `String.utf8ByteSize`.
* `time.Time` instants are embedded as `Int` nanoseconds since the Unix
  epoch (UTC); Go `t.Before u` is `t < u`, `t.After u` is `t > u`,
  `t.AddDate 0 0 d` is `goAddDays d t`.
* The package-level `var expiryValidations` calls `time.Now()` once, when
  the package is initialised.  That single captured instant is passed
  around explicitly as the `initNow` parameter.
* HTTP transport is abstracted: an operation that performs a POST is
  modelled as a function of the response it receives (status code and
  already-Shift-JIS-decoded body).  Transport failures and body-read
  failures are outside the modelled state space.
* `errors.New` sentinels and dynamically built errors are modelled by the
  inductive `GoError`; the three package sentinels share the same message
  text in Go but are distinct values, hence distinct constructors.
-/

set_option autoImplicit false

namespace Fmart

/-! ## Go primitives -/

/-- Go `len` on a string: the number of bytes of its UTF-8 encoding. -/
def goLen (s : String) : Nat :=
  s.utf8ByteSize

/-- RE2 `\d`: the ASCII digits `0`-`9`. -/
def isGoDigit (c : Char) : Bool :=
  decide ('0' ≤ c) && decide (c ≤ '9')

/-- Decimal value of a digit string (used under an all-digits guard). -/
def digitsToNat (cs : List Char) : Nat :=
  cs.foldl (fun a c => 10 * a + (c.toNat - 48)) 0

/-- Digit part of Go `strconv.Atoi`: all characters must be digits and the
result must fit in a 64-bit `int` (`strconv.ErrRange` otherwise). -/
def atoiDigits (ds : List Char) (sign : Int) : Option Int :=
  if ds = [] then none
  else if ¬ ds.all isGoDigit then none
  else
    let v : Int := sign * (digitsToNat ds : Int)
    if v < -(2 ^ 63) then none
    else if (2 ^ 63 - 1 : Int) < v then none
    else some v

/-- Go `strconv.Atoi`: optional single leading sign, then decimal digits;
empty input, a bare sign, stray characters and 64-bit overflow all yield an
error (`none`). -/
def goAtoi (s : String) : Option Int :=
  match s.data with
  | [] => none
  | '+' :: ds => atoiDigits ds 1
  | '-' :: ds => atoiDigits ds (-1)
  | ds => atoiDigits ds 1

/-- Go `strings.Join(elems, sep)`. -/
def goJoin (elems : List String) (sep : String) : String :=
  match elems with
  | [] => ""
  | e :: rest => rest.foldl (fun acc s => acc ++ sep ++ s) e

/-- Go `strings.Split(s, "\n")` (single-character separator): cut the
character list at every newline; the empty input yields one empty field. -/
def splitNl : List Char → List (List Char)
  | [] => [[]]
  | c :: cs =>
    if c = '\n' then [] :: splitNl cs
    else
      match splitNl cs with
      | [] => [[c]]
      | h :: t => (c :: h) :: t

/-- Go `fmt.Sprintf("%04d", i)` for a non-negative loop index. -/
def pad4 (i : Nat) : String :=
  let s := toString i
  String.mk (List.replicate (4 - s.length) '0') ++ s

/-- Go `t.AddDate(0, 0, d)` on a UTC instant. -/
def goAddDays (d : Int) (t : Int) : Int :=
  t + d * 86400 * 1000000000

/-- The zero value of Go `time.Time`: January 1, year 1, 00:00:00 UTC,
which is 62135596800 seconds before the Unix epoch. -/
def goZeroTime : Int :=
  (-62135596800) * 1000000000

/-! ## Errors

The three package sentinels (`ErrInvalidParams`, `ErrUnauthorizedRequest`,
`ErrInvalidRequest`) all carry the text "fmart: invalid params" in Go but
are three distinct `errors.New` values; `serverNon200` is the
`errors.New("fmart: server returned non 200")` built inside `request` (and
`AckInvoiceStatuses`), and `bodyMessage m` is the `fmt.Errorf("fmart: %s",
body)` error whose whole text is `m`. -/

inductive GoError where
  | errInvalidParams
  | errUnauthorizedRequest
  | errInvalidRequest
  | serverNon200
  | bodyMessage (msg : String)
deriving DecidableEq

/-- The message text carried by each modelled error value. -/
def GoError.text : GoError → String
  | .errInvalidParams => "fmart: invalid params"
  | .errUnauthorizedRequest => "fmart: invalid params"
  | .errInvalidRequest => "fmart: invalid params"
  | .serverNon200 => "fmart: server returned non 200"
  | .bodyMessage msg => msg

/-! ## Validation engine (`validateFunc`, `applyValidations`) -/

/-- `Errors()` result: Go `map[string][]string`, modelled as an association
list in key-insertion order (Go map iteration order is unspecified; the set
of entries is what the model captures). -/
abbrev ErrMap := List (String × List String)

/-- Go map read `m[k]` (presence of the key). -/
def mapFind : ErrMap → String → Option (List String)
  | [], _ => none
  | (k, msgs) :: rest, q => if k = q then some msgs else mapFind rest q

/-- The map update performed by `applyValidations` for one non-empty
message: append to the existing entry, or create a fresh entry. -/
def mapAppend : ErrMap → String → String → ErrMap
  | [], k, msg => [(k, [msg])]
  | (k, msgs) :: rest, q, msg =>
    if k = q then (k, msgs ++ [msg]) :: rest
    else (k, msgs) :: mapAppend rest q msg

/-- `applyValidations(m, k, v, fns)`: run each rule in order and record
every non-empty message under key `k`. -/
def applyValidations {α : Type} (m : ErrMap) (k : String) (v : α)
    (fns : List (α → String)) : ErrMap :=
  fns.foldl (fun acc fn => let msg := fn v; if msg = "" then acc else mapAppend acc k msg) m

/-- The non-empty messages produced by a rule list on a value, in rule
order (specification view of one `applyValidations` call). -/
def validationMsgs {α : Type} (fns : List (α → String)) (v : α) : List String :=
  (fns.map fun fn => fn v).filter fun msg => msg != ""

/-- `validateMin(n)`: fails on values strictly below `n`. -/
def validateMin (n : Int) : Int → String := fun x =>
  if x < n then "must be greater than " ++ toString n else ""

/-- `validateMax(n)`: fails on values strictly above `n`. -/
def validateMax (n : Int) : Int → String := fun x =>
  if n < x then "must be less than " ++ toString n else ""

/-- `validateMinLength(n)`: fails when `len(v) < n` (byte length). -/
def validateMinLength (n : Nat) : String → String := fun v =>
  if goLen v < n then "must be longer than " ++ toString n else ""

/-- `validateMaxLength(n)`: fails when `len(v) > n` (byte length). -/
def validateMaxLength (n : Nat) : String → String := fun v =>
  if n < goLen v then "must be less than " ++ toString n else ""

/-- `validateFormat(r)`: fails when the string has no substring matching
the pattern. -/
def validateFormat (matcher : String → Bool) : String → String := fun v =>
  if matcher v then "" else "invalid format"

/-- `validateMinTime(t)`: fails when the value is strictly before `t`. -/
def validateMinTime (t : Int) : Int → String := fun v =>
  if v < t then "must be after " ++ toString t else ""

/-- `validateMaxTime(t)`: fails when the value is strictly after `t`. -/
def validateMaxTime (t : Int) : Int → String := fun v =>
  if t < v then "must be before " ++ toString t else ""

/-! ## The phone-number pattern

`regexp.MustCompile` of the pattern with digit runs of lengths 2-5, 2-5
and 3-4 separated by dashes; `MatchString` asks whether some substring
matches, embedded as an existential over the start offset and the three
run lengths. -/

/-- Consume exactly `n` digits. -/
def dropDigits : Nat → List Char → Option (List Char)
  | 0, l => some l
  | _ + 1, [] => none
  | n + 1, c :: cs => if isGoDigit c then dropDigits n cs else none

/-- Consume one dash. -/
def dropDash : List Char → Option (List Char)
  | '-' :: cs => some cs
  | _ => none

/-- Does a match of the phone pattern start at the head of `l`? -/
def phoneMatchAt (l : List Char) : Bool :=
  (List.range' 2 4).any fun a =>
    match dropDigits a l with
    | none => false
    | some l1 =>
      match dropDash l1 with
      | none => false
      | some l2 =>
        (List.range' 2 4).any fun b =>
          match dropDigits b l2 with
          | none => false
          | some l3 =>
            match dropDash l3 with
            | none => false
            | some l4 => (List.range' 3 2).any fun c => (dropDigits c l4).isSome

/-- Go `MatchString`: does a match start at some offset? -/
def phoneMatchFrom : List Char → Bool
  | [] => phoneMatchAt []
  | c :: cs => phoneMatchAt (c :: cs) || phoneMatchFrom cs

/-- The compiled phone-number pattern applied to a string. -/
def phoneRegexpMatches (s : String) : Bool :=
  phoneMatchFrom s.data

/-! ## Validation rule lists (package-level `var` block) -/

def idValidations : List (String → String) :=
  [validateMinLength 1, validateMaxLength 18]

def nameValidations : List (String → String) :=
  [validateMinLength 1, validateMaxLength 40]

def nameKatakanaValidations : List (String → String) :=
  [validateMinLength 1, validateMaxLength 30]

def phoneNumberValidations : List (String → String) :=
  [validateMinLength 1, validateMaxLength 13, validateFormat phoneRegexpMatches]

def amountValidations : List (Int → String) :=
  [validateMin 1, validateMax 999999]

/-- `expiryValidations` is a package-level `var`, so both `time.Now()`
calls happen once at package initialisation; `initNow` is that captured
instant. -/
def expiryValidations (initNow : Int) : List (Int → String) :=
  [validateMinTime initNow, validateMaxTime (goAddDays 60 initNow)]

/-! ## Parameter models -/

/-- Process-wide configuration (`UserID`, `UserPassword`). -/
structure Config where
  userID : String
  userPassword : String
deriving DecidableEq

structure IssueInvoiceParams where
  Name : String
  NameKatakana : String
  PhoneNumber : String
  Amount : Int
  Expiry : Int
deriving DecidableEq

/-- `IssueInvoiceParams.Errors()`. -/
def issueInvoiceErrors (initNow : Int) (p : IssueInvoiceParams) : ErrMap :=
  applyValidations
    (applyValidations
      (applyValidations
        (applyValidations
          (applyValidations [] "name" p.Name nameValidations)
          "name_katakana" p.NameKatakana nameKatakanaValidations)
        "phone_number" p.PhoneNumber phoneNumberValidations)
      "amount" p.Amount amountValidations)
    "expiry" p.Expiry (expiryValidations initNow)

/-- `IssueInvoiceParams.IsValid()`: `len(p.Errors()) == 0`. -/
def issueInvoiceIsValid (initNow : Int) (p : IssueInvoiceParams) : Bool :=
  (issueInvoiceErrors initNow p).length = 0

structure ModifyInvoiceParams where
  ID : String
  Name : String
  NameKatakana : String
  PhoneNumber : String
  Amount : Int
  Expiry : Int
deriving DecidableEq

/-- `ModifyInvoiceParams.Errors()`. -/
def modifyInvoiceErrors (initNow : Int) (p : ModifyInvoiceParams) : ErrMap :=
  applyValidations
    (applyValidations
      (applyValidations
        (applyValidations
          (applyValidations
            (applyValidations [] "id" p.ID idValidations)
            "name" p.Name nameValidations)
          "name_katakana" p.NameKatakana nameKatakanaValidations)
        "phone_number" p.PhoneNumber phoneNumberValidations)
      "amount" p.Amount amountValidations)
    "expiry" p.Expiry (expiryValidations initNow)

/-- `ModifyInvoiceParams.IsValid()`. -/
def modifyInvoiceIsValid (initNow : Int) (p : ModifyInvoiceParams) : Bool :=
  (modifyInvoiceErrors initNow p).length = 0

/-! ## Request pipeline (`request`) -/

/-- The shared `request` helper, as a function of the HTTP response it
receives (status code, Shift-JIS-decoded body): non-200 is a generic
server error; a one-line body is the success payload; a multi-line body
becomes the text of the returned error. -/
def request (status : Nat) (body : String) : String × Option GoError :=
  if status ≠ 200 then ("", some GoError.serverNon200)
  else
    match splitNl body.data with
    | [l] => (String.mk l, none)
    | _ => ("", some (GoError.bodyMessage ("fmart: " ++ body)))

/-- `IssueInvoice`: validate, then run the request pipeline on the
response. -/
def IssueInvoice (initNow : Int) (p : IssueInvoiceParams)
    (status : Nat) (body : String) : String × Option GoError :=
  if issueInvoiceIsValid initNow p = false then ("", some GoError.errInvalidParams)
  else request status body

/-- `ModifyInvoice`: validate, then run the request pipeline, discarding
the payload. -/
def ModifyInvoice (initNow : Int) (p : ModifyInvoiceParams)
    (status : Nat) (body : String) : Option GoError :=
  if modifyInvoiceIsValid initNow p = false then some GoError.errInvalidParams
  else (request status body).2

/-! ## Cancel -/

/-- `url.Values` in source order. -/
abbrev Values := List (String × List String)

/-- What an operation does before any response arrives: abort locally with
an error, or build form values and POST them. -/
inductive RequestAction where
  | abort (e : GoError)
  | post (v : Values)
deriving DecidableEq

/-- The form values built by `CancelInvoice`. -/
def cancelValues (cfg : Config) (ID : String) : Values :=
  [("login_user_id", [cfg.userID]),
   ("login_password", [cfg.userPassword]),
   ("regist_type", ["9"]),
   ("receipt_no", [ID])]

/-- `CancelInvoice` performs no validation: it unconditionally builds the
cancel form values and POSTs them. -/
def CancelInvoice (cfg : Config) (ID : String) : RequestAction :=
  RequestAction.post (cancelValues cfg ID)

/-- The error `CancelInvoice` returns once the response arrives. -/
def cancelInvoiceResult (status : Nat) (body : String) : Option GoError :=
  (request status body).2

/-! ## AckInvoiceStatuses -/

/-- The plain-text POST sent by `AckInvoiceStatuses`: the identifiers
joined with CRLF, content type `text/plain`, nothing else. -/
structure AckRequest where
  body : String
  contentType : String
deriving DecidableEq

def ackRequest (IDs : List String) : AckRequest :=
  ⟨goJoin IDs "\r\n", "text/plain"⟩

/-- The result of `AckInvoiceStatuses` as a function of the response
status: nil exactly on HTTP 200. -/
def AckInvoiceStatuses (status : Nat) : Option GoError :=
  if status ≠ 200 then some GoError.serverNon200 else none

/-! ## Inbound notification parsing -/

/-- An inbound request form: field name to value, first binding wins
(`http.Request.FormValue` returns the first value, or `""`). -/
abbrev Form := List (String × String)

def formValue (r : Form) (k : String) : String :=
  match r with
  | [] => ""
  | (k2, v) :: rest => if k2 = k then v else formValue rest k

def StatusDepositMade : Int := 1
def StatusDepositCanceled : Int := 2
def StatusDepositFinalized : Int := 3

/-- The parsed timestamp components (what `time.Parse` hands to `Date`). -/
structure GoTime where
  year : Nat
  month : Nat
  day : Nat
  hour : Nat
  minute : Nat
deriving DecidableEq

def isLeapYear (y : Nat) : Bool :=
  y % 4 = 0 && (y % 100 != 0 || y % 400 = 0)

def daysInMonth (y m : Nat) : Nat :=
  if m = 2 then (if isLeapYear y then 29 else 28)
  else if m = 4 ∨ m = 6 ∨ m = 9 ∨ m = 11 then 30
  else 31

/-- Go `time.Parse("200601020304", s)`.  The layout chunks are `2006`
(4-digit year), `01` (month 01-12), `02` (day, checked against the month
length), `03` and `04`.  Crucially, the layout verb `03` is Go's
zero-padded TWELVE-hour clock (`15` is the 24-hour verb), so `time.Parse`
rejects any hour value above 12 with "hour out of range"; with no AM/PM
verb in the layout the parsed hour 0-12 is used as-is.  Minutes are 00-59,
the value must be exactly the 12 layout digits, and every component must
be decimal digits. -/
def parseReceiptDate (s : String) : Option GoTime :=
  let cs := s.data
  if cs.length = 12 ∧ cs.all isGoDigit then
    let year := digitsToNat (cs.take 4)
    let month := digitsToNat ((cs.drop 4).take 2)
    let day := digitsToNat ((cs.drop 6).take 2)
    let hour := digitsToNat ((cs.drop 8).take 2)
    let minute := digitsToNat ((cs.drop 10).take 2)
    if 1 ≤ month ∧ month ≤ 12 ∧ 1 ≤ day ∧ day ≤ daysInMonth year month
        ∧ hour ≤ 12 ∧ minute ≤ 59 then
      some ⟨year, month, day, hour, minute⟩
    else none
  else none

structure InvoiceStatus where
  ID : String
  Amount : Int
  Status : Int
  UpdatedAt : GoTime
deriving DecidableEq

/-- `parseInvoiceStatusAt(r, i)`: every failure returns
`ErrInvalidRequest`, modelled as `none`. -/
def parseInvoiceStatusAt (r : Form) (i : Nat) : Option InvoiceStatus :=
  let id := formValue r ("receipt_no_" ++ pad4 i)
  if id = "" then none
  else
    match goAtoi (formValue r ("payment_" ++ pad4 i)) with
    | none => none
    | some amount =>
      let st := formValue r ("status_" ++ pad4 i)
      let status : Option Int :=
        if st = "1" then some StatusDepositMade
        else if st = "2" then some StatusDepositCanceled
        else if st = "3" then some StatusDepositFinalized
        else none
      match status with
      | none => none
      | some status =>
        match parseReceiptDate (formValue r ("receipt_date_" ++ pad4 i)) with
        | none => none
        | some updatedAt =>
          some ⟨id, amount, status, updatedAt⟩

/-- The fill loop `for i := 0; i < n; i++`: parse the indices
`i, i+1, ..., i+remaining-1` in order, failing as a whole on the first bad
index (the caller then discards everything and returns
`ErrInvalidRequest`). -/
def parseStatusesFrom (r : Form) : Nat → Nat → Option (List InvoiceStatus)
  | 0, _ => some []
  | remaining + 1, i =>
    match parseInvoiceStatusAt r i with
    | none => none
    | some s =>
      match parseStatusesFrom r remaining (i + 1) with
      | none => none
      | some rest => some (s :: rest)

/-- Outcome of `ParseInvoiceStatuses`: a runtime panic, `(nil, err)`, or
`(statuses, nil)`. -/
inductive ParseOutcome where
  | panicked
  | failed (e : GoError)
  | ok (statuses : List InvoiceStatus)
deriving DecidableEq

/-- `ParseInvoiceStatuses`: credential check, `Atoi` of
`number_of_notify`, then `make([]*InvoiceStatus, n)` — which PANICS at
runtime when `n` is negative ("makeslice: len out of range") — and the
all-or-nothing fill loop. -/
def ParseInvoiceStatuses (cfg : Config) (r : Form) : ParseOutcome :=
  if formValue r "login_user_id" ≠ cfg.userID
      ∨ formValue r "login_password" ≠ cfg.userPassword then
    ParseOutcome.failed GoError.errUnauthorizedRequest
  else
    match goAtoi (formValue r "number_of_notify") with
    | none => ParseOutcome.failed GoError.errInvalidRequest
    | some n =>
      if n < 0 then ParseOutcome.panicked
      else
        match parseStatusesFrom r n.toNat 0 with
        | none => ParseOutcome.failed GoError.errInvalidRequest
        | some statuses => ParseOutcome.ok statuses

/-- Modelled from the spec: a timestamp well-formed "as `YYYYMMDDHHMM`" —
the claim C1 wording — has a 24-hour `HH` field (00-23); everything else
as in the code's date parsing.  This is the refinement target the code's
`parseReceiptDate` is compared against. -/
def specTimestampWf (s : String) : Bool :=
  let cs := s.data
  if cs.length = 12 ∧ cs.all isGoDigit then
    let year := digitsToNat (cs.take 4)
    let month := digitsToNat ((cs.drop 4).take 2)
    let day := digitsToNat ((cs.drop 6).take 2)
    let hour := digitsToNat ((cs.drop 8).take 2)
    let minute := digitsToNat ((cs.drop 10).take 2)
    decide (1 ≤ month ∧ month ≤ 12 ∧ 1 ≤ day ∧ day ≤ daysInMonth year month
      ∧ hour ≤ 23 ∧ minute ≤ 59)
  else false

/-- Modelled from the spec words of claim C2: the expiry fails validation
iff it is equal to or before the "now" at which validation runs, or more
than 60 days after that "now". -/
def expirySpecFails (validationNow expiry : Int) : Bool :=
  decide (expiry ≤ validationNow) || decide (goAddDays 60 validationNow < expiry)

/-- The third payload of the repository's own `TestParseInvoiceStatuses`:
`number_of_notify=3` with three well-formed index groups (hours are 20,
i.e. 8 PM), which the test asserts parses into 3 statuses with nil
error. -/
def repoTestForm : Form :=
  [("login_user_id", ""),
   ("login_password", ""),
   ("number_of_notify", "3"),
   ("receipt_no_0000", "invlice-1"),
   ("status_0000", "1"),
   ("receipt_date_0000", "201502082010"),
   ("payment_0000", "101"),
   ("receipt_no_0001", "invlice-2"),
   ("status_0001", "2"),
   ("receipt_date_0001", "201502082010"),
   ("payment_0001", "102"),
   ("receipt_no_0002", "invlice-3"),
   ("status_0002", "3"),
   ("receipt_date_0002", "201502082010"),
   ("payment_0002", "103")]

/-! ## Helper lemmas -/

theorem splitNl_ne_nil (l : List Char) : splitNl l ≠ [] := by
  cases l with
  | nil => simp [splitNl]
  | cons c cs =>
    unfold splitNl
    by_cases hc : c = '\n'
    · simp [hc]
    · rw [if_neg hc]
      cases splitNl cs <;> simp

theorem splitNl_of_not_mem (l : List Char) (h : '\n' ∉ l) : splitNl l = [l] := by
  induction l with
  | nil => rfl
  | cons c cs ih =>
    have hc : c ≠ '\n' := fun hx => h (hx ▸ List.mem_cons_self c cs)
    have hcs : '\n' ∉ cs := fun hx => h (List.mem_cons_of_mem c hx)
    unfold splitNl
    rw [if_neg hc, ih hcs]

theorem two_le_length_splitNl (l : List Char) (h : '\n' ∈ l) :
    2 ≤ (splitNl l).length := by
  induction l with
  | nil => simp at h
  | cons c cs ih =>
    unfold splitNl
    by_cases hc : c = '\n'
    · rw [if_pos hc]
      have := splitNl_ne_nil cs
      cases hx : splitNl cs with
      | nil => exact absurd hx this
      | cons a t => simp
    · rw [if_neg hc]
      have hcs : '\n' ∈ cs := by
        cases List.mem_cons.mp h with
        | inl hx => exact absurd hx.symm hc
        | inr hx => exact hx
      have h2 := ih hcs
      cases hx : splitNl cs with
      | nil => exact absurd hx (splitNl_ne_nil cs)
      | cons a t =>
        rw [hx] at h2
        simpa using h2

theorem append_ne_empty_left (a b : String) (h : a ≠ "") : a ++ b ≠ "" := by
  obtain ⟨la⟩ := a
  obtain ⟨lb⟩ := b
  intro hc
  apply h
  have hd : la ++ lb = ([] : List Char) := congrArg String.data hc
  have hla : la = [] := (List.append_eq_nil.mp hd).1
  rw [hla]

theorem mapFind_mapAppend_ne (m : ErrMap) (k q msg : String) (h : k ≠ q) :
    mapFind (mapAppend m k msg) q = mapFind m q := by
  induction m with
  | nil => simp [mapAppend, mapFind, h]
  | cons kv rest ih =>
    obtain ⟨k2, msgs⟩ := kv
    by_cases hk : k2 = k
    · subst hk
      simp [mapAppend, mapFind, h]
    · by_cases hq : k2 = q
      · subst hq
        simp [mapAppend, mapFind, hk, Ne.symm h]
      · simp [mapAppend, mapFind, hk, hq, ih]

theorem mapFind_mapAppend_self (m : ErrMap) (k msg : String) :
    mapFind (mapAppend m k msg) k = some ((mapFind m k).getD [] ++ [msg]) := by
  induction m with
  | nil => simp [mapAppend, mapFind]
  | cons kv rest ih =>
    obtain ⟨k2, msgs⟩ := kv
    by_cases hk : k2 = k <;> simp [mapAppend, mapFind, hk, ih]

theorem applyValidations_nil {α : Type} (m : ErrMap) (k : String) (v : α) :
    applyValidations m k v [] = m := rfl

theorem applyValidations_cons {α : Type} (m : ErrMap) (k : String) (v : α)
    (fn : α → String) (fns : List (α → String)) :
    applyValidations m k v (fn :: fns) =
      applyValidations (if fn v = "" then m else mapAppend m k (fn v)) k v fns := rfl

theorem mapFind_applyValidations_ne {α : Type} (m : ErrMap) (k q : String) (v : α)
    (fns : List (α → String)) (h : k ≠ q) :
    mapFind (applyValidations m k v fns) q = mapFind m q := by
  induction fns generalizing m with
  | nil => rfl
  | cons fn fns ih =>
    rw [applyValidations_cons]
    by_cases hm : fn v = ""
    · rw [if_pos hm, ih]
    · rw [if_neg hm, ih, mapFind_mapAppend_ne _ _ _ _ h]

theorem validationMsgs_nil {α : Type} (v : α) : validationMsgs [] v = [] := rfl

theorem validationMsgs_cons_empty {α : Type} (v : α) (fn : α → String)
    (fns : List (α → String)) (h : fn v = "") :
    validationMsgs (fn :: fns) v = validationMsgs fns v := by
  simp [validationMsgs, h]

theorem validationMsgs_cons_msg {α : Type} (v : α) (fn : α → String)
    (fns : List (α → String)) (h : fn v ≠ "") :
    validationMsgs (fn :: fns) v = fn v :: validationMsgs fns v := by
  have hb : (fn v != "") = true := by
    simp [bne_iff_ne, h]
  simp [validationMsgs, List.filter, hb]

theorem mapFind_applyValidations_some {α : Type} (m : ErrMap) (k : String) (v : α)
    (fns : List (α → String)) (ms : List String) (h : mapFind m k = some ms) :
    mapFind (applyValidations m k v fns) k = some (ms ++ validationMsgs fns v) := by
  induction fns generalizing m ms with
  | nil => simp [applyValidations_nil, validationMsgs_nil, h]
  | cons fn fns ih =>
    rw [applyValidations_cons]
    by_cases hm : fn v = ""
    · rw [if_pos hm, ih _ _ h, validationMsgs_cons_empty _ _ _ hm]
    · rw [if_neg hm]
      have h2 : mapFind (mapAppend m k (fn v)) k = some (ms ++ [fn v]) := by
        rw [mapFind_mapAppend_self, h]
        rfl
      rw [ih _ _ h2, validationMsgs_cons_msg _ _ _ hm]
      simp

theorem mapFind_applyValidations_none {α : Type} (m : ErrMap) (k : String) (v : α)
    (fns : List (α → String)) (h : mapFind m k = none) :
    mapFind (applyValidations m k v fns) k =
      if validationMsgs fns v = [] then none else some (validationMsgs fns v) := by
  induction fns generalizing m with
  | nil => simp [applyValidations_nil, validationMsgs_nil, h]
  | cons fn fns ih =>
    rw [applyValidations_cons]
    by_cases hm : fn v = ""
    · rw [if_pos hm, ih _ h, validationMsgs_cons_empty _ _ _ hm]
    · rw [if_neg hm]
      have h2 : mapFind (mapAppend m k (fn v)) k = some ([] ++ [fn v]) := by
        rw [mapFind_mapAppend_self, h]
        rfl
      rw [mapFind_applyValidations_some _ _ _ _ _ h2, validationMsgs_cons_msg _ _ _ hm]
      simp

theorem validationMsgs_length_pair (lo hi : Nat) (s : String) :
    validationMsgs [validateMinLength lo, validateMaxLength hi] s = [] ↔
      (lo ≤ goLen s ∧ goLen s ≤ hi) := by
  have h1 : ("must be longer than " ++ toString lo) ≠ "" :=
    append_ne_empty_left _ _ (by decide)
  have h2 : ("must be less than " ++ toString hi) ≠ "" :=
    append_ne_empty_left _ _ (by decide)
  unfold validateMinLength validateMaxLength
  by_cases ha : goLen s < lo
  · rw [validationMsgs_cons_msg _ _ _ (by simp [ha, h1])]
    simp
    omega
  · rw [validationMsgs_cons_empty _ _ _ (by simp [ha])]
    by_cases hb : hi < goLen s
    · rw [validationMsgs_cons_msg _ _ _ (by simp [hb, h2])]
      simp
      omega
    · rw [validationMsgs_cons_empty _ _ _ (by simp [hb]), validationMsgs_nil]
      simp
      omega

theorem validationMsgs_expiry (initNow e : Int) :
    validationMsgs (expiryValidations initNow) e = [] ↔
      (initNow ≤ e ∧ e ≤ goAddDays 60 initNow) := by
  have h1 : ("must be after " ++ toString initNow) ≠ "" :=
    append_ne_empty_left _ _ (by decide)
  have h2 : ("must be before " ++ toString (goAddDays 60 initNow)) ≠ "" :=
    append_ne_empty_left _ _ (by decide)
  unfold expiryValidations validateMinTime validateMaxTime
  by_cases ha : e < initNow
  · rw [validationMsgs_cons_msg _ _ _ (by simp [ha, h1])]
    simp
    unfold goAddDays
    omega
  · rw [validationMsgs_cons_empty _ _ _ (by simp [ha])]
    by_cases hb : goAddDays 60 initNow < e
    · rw [validationMsgs_cons_msg _ _ _ (by simp [hb, h2])]
      simp
      unfold goAddDays at hb ⊢
      omega
    · rw [validationMsgs_cons_empty _ _ _ (by simp [hb]), validationMsgs_nil]
      simp
      unfold goAddDays at hb ⊢
      omega

theorem mapFind_issue_expiry (initNow : Int) (p : IssueInvoiceParams) :
    mapFind (issueInvoiceErrors initNow p) "expiry" =
      if validationMsgs (expiryValidations initNow) p.Expiry = [] then none
      else some (validationMsgs (expiryValidations initNow) p.Expiry) := by
  unfold issueInvoiceErrors
  apply mapFind_applyValidations_none
  rw [mapFind_applyValidations_ne _ "amount" "expiry" _ _ (by decide)]
  rw [mapFind_applyValidations_ne _ "phone_number" "expiry" _ _ (by decide)]
  rw [mapFind_applyValidations_ne _ "name_katakana" "expiry" _ _ (by decide)]
  rw [mapFind_applyValidations_ne _ "name" "expiry" _ _ (by decide)]
  rfl

theorem mapFind_modify_expiry (initNow : Int) (p : ModifyInvoiceParams) :
    mapFind (modifyInvoiceErrors initNow p) "expiry" =
      if validationMsgs (expiryValidations initNow) p.Expiry = [] then none
      else some (validationMsgs (expiryValidations initNow) p.Expiry) := by
  unfold modifyInvoiceErrors
  apply mapFind_applyValidations_none
  rw [mapFind_applyValidations_ne _ "amount" "expiry" _ _ (by decide)]
  rw [mapFind_applyValidations_ne _ "phone_number" "expiry" _ _ (by decide)]
  rw [mapFind_applyValidations_ne _ "name_katakana" "expiry" _ _ (by decide)]
  rw [mapFind_applyValidations_ne _ "name" "expiry" _ _ (by decide)]
  rw [mapFind_applyValidations_ne _ "id" "expiry" _ _ (by decide)]
  rfl

theorem mapFind_issue_name (initNow : Int) (p : IssueInvoiceParams) :
    mapFind (issueInvoiceErrors initNow p) "name" =
      if validationMsgs nameValidations p.Name = [] then none
      else some (validationMsgs nameValidations p.Name) := by
  unfold issueInvoiceErrors
  rw [mapFind_applyValidations_ne _ "expiry" "name" _ _ (by decide)]
  rw [mapFind_applyValidations_ne _ "amount" "name" _ _ (by decide)]
  rw [mapFind_applyValidations_ne _ "phone_number" "name" _ _ (by decide)]
  rw [mapFind_applyValidations_ne _ "name_katakana" "name" _ _ (by decide)]
  apply mapFind_applyValidations_none
  rfl

theorem mapFind_issue_name_katakana (initNow : Int) (p : IssueInvoiceParams) :
    mapFind (issueInvoiceErrors initNow p) "name_katakana" =
      if validationMsgs nameKatakanaValidations p.NameKatakana = [] then none
      else some (validationMsgs nameKatakanaValidations p.NameKatakana) := by
  unfold issueInvoiceErrors
  rw [mapFind_applyValidations_ne _ "expiry" "name_katakana" _ _ (by decide)]
  rw [mapFind_applyValidations_ne _ "amount" "name_katakana" _ _ (by decide)]
  rw [mapFind_applyValidations_ne _ "phone_number" "name_katakana" _ _ (by decide)]
  apply mapFind_applyValidations_none
  rw [mapFind_applyValidations_ne _ "name" "name_katakana" _ _ (by decide)]
  rfl

/-! ## Claim theorems -/

/-- Claim C3: the request pipeline maps an HTTP 200 response with a single-line
(newline-free) decoded body to that line verbatim with nil error; a 200
response with a multi-line body to an empty identifier and an error whose
text is "fmart: " followed by the full body (so it contains the full body
text); and any non-200 status to an empty identifier and the generic
server error. -/
theorem c3_response_contract (status : Nat) (body : String) :
    request status body =
      if status = 200 then
        (if '\n' ∈ body.data then ("", some (GoError.bodyMessage ("fmart: " ++ body)))
         else (body, none))
      else ("", some GoError.serverNon200) := by
  unfold request
  by_cases hs : status = 200
  · have hs2 : ¬ status ≠ 200 := by simp [hs]
    rw [if_neg hs2, if_pos hs]
    by_cases hn : '\n' ∈ body.data
    · rw [if_pos hn]
      have h2 := two_le_length_splitNl _ hn
      cases hx : splitNl body.data with
      | nil => exact absurd hx (splitNl_ne_nil body.data)
      | cons a t =>
        cases t with
        | nil =>
          rw [hx] at h2
          simp at h2
        | cons b t2 => rfl
    · rw [if_neg hn, splitNl_of_not_mem _ hn]
  · rw [if_pos hs, if_neg hs]

/-- Claim C10: a 200 response with an empty decoded body is the single-line
success shape: a valid `IssueInvoice` call returns the empty string as the
invoice identifier with nil error, and valid `ModifyInvoice` /
`CancelInvoice` calls return nil error. -/
theorem c10_empty_body_success :
    (∀ (initNow : Int) (p : IssueInvoiceParams),
        issueInvoiceIsValid initNow p = true → IssueInvoice initNow p 200 "" = ("", none))
    ∧ (∀ (initNow : Int) (q : ModifyInvoiceParams),
        modifyInvoiceIsValid initNow q = true → ModifyInvoice initNow q 200 "" = none)
    ∧ cancelInvoiceResult 200 "" = none := by
  have hreq : request 200 "" = ("", none) := by decide
  refine ⟨fun initNow p hv => ?_, fun initNow q hv => ?_, ?_⟩
  · unfold IssueInvoice
    rw [hv]
    simp [hreq]
  · unfold ModifyInvoice
    rw [hv]
    simp [hreq]
  · decide

/-- A concrete parameter set every rule accepts (phone in the required
format, amount in range, expiry one day after the captured init time). -/
def okIssueParams : IssueInvoiceParams :=
  ⟨"a", "a", "0120-444-444", 100, goAddDays 1 0⟩

def okModifyParams : ModifyInvoiceParams :=
  ⟨"id-1", "a", "a", "0120-444-444", 100, goAddDays 1 0⟩

theorem c10_empty_body_success_witness :
    (issueInvoiceIsValid 0 okIssueParams = true
      ∧ IssueInvoice 0 okIssueParams 200 "" = ("", none))
    ∧ (modifyInvoiceIsValid 0 okModifyParams = true
      ∧ ModifyInvoice 0 okModifyParams 200 "" = none) :=
  ⟨⟨by decide, c10_empty_body_success.1 0 okIssueParams (by decide)⟩,
   ⟨by decide, c10_empty_body_success.2.1 0 okModifyParams (by decide)⟩⟩

/-- Claim C7: `AckInvoiceStatuses` on identifiers 1, 2, 3 POSTs exactly the
CRLF-join as a plain-text body (no form-encoding, no credentials), and its
result is nil exactly when the response status is 200. -/
theorem c7_ack_crlf_join :
    ackRequest ["1", "2", "3"] = AckRequest.mk "1\r\n2\r\n3" "text/plain"
    ∧ ∀ status : Nat, AckInvoiceStatuses status = none ↔ status = 200 := by
  constructor
  · decide
  · intro status
    unfold AckInvoiceStatuses
    by_cases hs : status = 200
    · simp [hs]
    · simp [hs]

/-- Claim C8, counterexample: with the EMPTY identifier `CancelInvoice`
still builds and POSTs the cancel request (regist_type 9, empty
receipt_no); it does not fail first, contradicting the claim that an empty
identifier makes the operation fail rather than send. -/
theorem c8_counterexample :
    CancelInvoice ⟨"u", "p"⟩ "" =
      RequestAction.post
        [("login_user_id", ["u"]), ("login_password", ["p"]),
         ("regist_type", ["9"]), ("receipt_no", [""])] := by decide

/-- Claim C8, amended: `CancelInvoice` performs no validation at all — for
every identifier, including the empty string, it builds and POSTs the
cancel form values (regist_type 9) and never aborts locally. -/
theorem c8_no_validation (cfg : Config) (ID : String) :
    CancelInvoice cfg ID =
      RequestAction.post
        [("login_user_id", [cfg.userID]), ("login_password", [cfg.userPassword]),
         ("regist_type", ["9"]), ("receipt_no", [ID])] := rfl

/-- Claim C5: whenever the inbound credentials differ from the configured
ones, `ParseInvoiceStatuses` returns `ErrUnauthorizedRequest` with a nil
status list (the `failed` outcome carries no statuses), regardless of all
other form fields. -/
theorem c5_unauthorized (cfg : Config) (r : Form)
    (h : formValue r "login_user_id" ≠ cfg.userID
      ∨ formValue r "login_password" ≠ cfg.userPassword) :
    ParseInvoiceStatuses cfg r = ParseOutcome.failed GoError.errUnauthorizedRequest := by
  unfold ParseInvoiceStatuses
  rw [if_pos h]

theorem c5_unauthorized_witness :
    (formValue [("login_user_id", "x")] "login_user_id" ≠ (Config.mk "u" "p").userID
      ∨ formValue [("login_user_id", "x")] "login_password" ≠ (Config.mk "u" "p").userPassword)
    ∧ ParseInvoiceStatuses (Config.mk "u" "p") [("login_user_id", "x")]
        = ParseOutcome.failed GoError.errUnauthorizedRequest :=
  ⟨Or.inl (by decide),
   c5_unauthorized (Config.mk "u" "p") [("login_user_id", "x")] (Or.inl (by decide))⟩

/-- Claim C9: with matching credentials and a `number_of_notify` that
`Atoi` parses as a negative integer, `ParseInvoiceStatuses` panics at the
`make([]*InvoiceStatus, n)` allocation instead of returning an error. -/
theorem c9_negative_count_panics (cfg : Config) (r : Form) (n : Int)
    (h1 : formValue r "login_user_id" = cfg.userID)
    (h2 : formValue r "login_password" = cfg.userPassword)
    (h3 : goAtoi (formValue r "number_of_notify") = some n)
    (h4 : n < 0) :
    ParseInvoiceStatuses cfg r = ParseOutcome.panicked := by
  have hc : ¬ (formValue r "login_user_id" ≠ cfg.userID
      ∨ formValue r "login_password" ≠ cfg.userPassword) := by
    push_neg
    exact ⟨h1, h2⟩
  unfold ParseInvoiceStatuses
  rw [if_neg hc, h3]
  simp [h4]

theorem c9_negative_count_panics_witness :
    (formValue [("number_of_notify", "-1")] "login_user_id" = (Config.mk "" "").userID
      ∧ formValue [("number_of_notify", "-1")] "login_password" = (Config.mk "" "").userPassword
      ∧ goAtoi (formValue [("number_of_notify", "-1")] "number_of_notify") = some (-1)
      ∧ (-1 : Int) < 0)
    ∧ ParseInvoiceStatuses (Config.mk "" "") [("number_of_notify", "-1")]
        = ParseOutcome.panicked :=
  ⟨⟨by decide, by decide, by decide, by decide⟩,
   c9_negative_count_panics (Config.mk "" "") [("number_of_notify", "-1")] (-1)
     (by decide) (by decide) (by decide) (by decide)⟩

/-- Claim C1 (code bug): the repository's own test payload has every index
group well-formed in the documented `YYYYMMDDHHMM` sense
(`specTimestampWf` accepts the timestamps), yet the code's
`time.Parse("200601020304", ...)` uses Go's 12-hour layout verb `03`, so
the hour value 20 is "out of range", every index fails, and
`ParseInvoiceStatuses` returns `ErrInvalidRequest` instead of the 3
statuses the claim (and the test) expect. -/
theorem c1_hour12_code_bug :
    specTimestampWf "201502082010" = true
    ∧ parseReceiptDate "201502082010" = none
    ∧ ParseInvoiceStatuses ⟨"", ""⟩ repoTestForm
        = ParseOutcome.failed GoError.errInvalidRequest :=
  ⟨by decide, by decide, by decide⟩

/-- Claim C2, counterexample: the code disagrees with the claim at two
concrete points.  With the init-captured clock at 0 and an expiry exactly
equal to a validation-time "now" of 0, the code reports no expiry error
though the claim requires one (equal-to-now must fail); and for a run
initialised at 0 but validating at time 10 an expiry of 5 (already in the
past at validation time), the code again reports no expiry error. -/
theorem c2_counterexample :
    mapFind (issueInvoiceErrors 0 ⟨"", "", "", 0, 0⟩) "expiry" = none
    ∧ expirySpecFails 0 0 = true
    ∧ mapFind (issueInvoiceErrors 0 ⟨"", "", "", 0, 5⟩) "expiry" = none
    ∧ expirySpecFails 10 5 = true :=
  ⟨by decide, by decide, by decide, by decide⟩

/-- Claim C2, amended: the expiry bounds are captured once from the clock
at package initialisation (`expiryValidations` is a package-level `var`),
not at validation time, and both bounds are strict: the "expiry" entry is
present in `Errors()` (for both issue and modify params) iff the expiry is
strictly before the captured init instant or strictly after that instant
plus 60 days; an expiry equal to the captured instant passes. -/
theorem c2_expiry_init_window (initNow : Int) (p : IssueInvoiceParams)
    (q : ModifyInvoiceParams) :
    (mapFind (issueInvoiceErrors initNow p) "expiry" ≠ none ↔
      (p.Expiry < initNow ∨ goAddDays 60 initNow < p.Expiry))
    ∧ (mapFind (modifyInvoiceErrors initNow q) "expiry" ≠ none ↔
      (q.Expiry < initNow ∨ goAddDays 60 initNow < q.Expiry)) := by
  constructor
  · rw [mapFind_issue_expiry]
    by_cases hm : validationMsgs (expiryValidations initNow) p.Expiry = []
    · have hw := (validationMsgs_expiry initNow p.Expiry).mp hm
      rw [if_pos hm]
      simp
      unfold goAddDays at hw ⊢
      omega
    · have hw : ¬ (initNow ≤ p.Expiry ∧ p.Expiry ≤ goAddDays 60 initNow) :=
        fun hx => hm ((validationMsgs_expiry initNow p.Expiry).mpr hx)
      rw [if_neg hm]
      simp
      unfold goAddDays at hw ⊢
      omega
  · rw [mapFind_modify_expiry]
    by_cases hm : validationMsgs (expiryValidations initNow) q.Expiry = []
    · have hw := (validationMsgs_expiry initNow q.Expiry).mp hm
      rw [if_pos hm]
      simp
      unfold goAddDays at hw ⊢
      omega
    · have hw : ¬ (initNow ≤ q.Expiry ∧ q.Expiry ≤ goAddDays 60 initNow) :=
        fun hx => hm ((validationMsgs_expiry initNow q.Expiry).mpr hx)
      rw [if_neg hm]
      simp
      unfold goAddDays at hw ⊢
      omega

/-- Claim C4, counterexample: a name of 20 characters — well inside the
claimed 1-40 character window — still fails the "name" validation, because
Go `len` counts UTF-8 bytes and these 20 katakana characters occupy 60
bytes. -/
theorem c4_counterexample :
    ("アアアアアアアアアアアアアアアアアアアア" : String).length = 20
    ∧ mapFind
        (issueInvoiceErrors 0
          ⟨"アアアアアアアアアアアアアアアアアアアア", "", "", 0, 0⟩)
        "name" ≠ none :=
  ⟨by decide, by decide⟩

/-- Claim C4, amended: the name and phonetic-name length windows are
byte-based, not character-based: the "name" entry is absent from
`Errors()` iff the name is 1-40 BYTES of UTF-8, and the "name_katakana"
entry is absent iff the phonetic name is 1-30 BYTES. -/
theorem c4_byte_length_window (initNow : Int) (p : IssueInvoiceParams) :
    (mapFind (issueInvoiceErrors initNow p) "name" = none ↔
      (1 ≤ goLen p.Name ∧ goLen p.Name ≤ 40))
    ∧ (mapFind (issueInvoiceErrors initNow p) "name_katakana" = none ↔
      (1 ≤ goLen p.NameKatakana ∧ goLen p.NameKatakana ≤ 30)) := by
  constructor
  · rw [mapFind_issue_name]
    by_cases hm : validationMsgs nameValidations p.Name = []
    · rw [if_pos hm]
      simp
      exact (validationMsgs_length_pair 1 40 p.Name).mp hm
    · rw [if_neg hm]
      constructor
      · intro hx
        simp at hx
      · intro hx
        exact absurd ((validationMsgs_length_pair 1 40 p.Name).mpr hx) hm
  · rw [mapFind_issue_name_katakana]
    by_cases hm : validationMsgs nameKatakanaValidations p.NameKatakana = []
    · rw [if_pos hm]
      simp
      exact (validationMsgs_length_pair 1 30 p.NameKatakana).mp hm
    · rw [if_neg hm]
      constructor
      · intro hx
        simp at hx
      · intro hx
        exact absurd ((validationMsgs_length_pair 1 30 p.NameKatakana).mpr hx) hm

/-- The full error map of the zero-value `IssueInvoiceParams`, for any
init instant after the `time.Time` zero value. -/
theorem c6_empty_errors_eq (initNow : Int) (h : goZeroTime < initNow) :
    issueInvoiceErrors initNow ⟨"", "", "", 0, goZeroTime⟩ =
      [("name", ["must be longer than 1"]),
       ("name_katakana", ["must be longer than 1"]),
       ("phone_number", ["must be longer than 1", "invalid format"]),
       ("amount", ["must be greater than 1"]),
       ("expiry", ["must be after " ++ toString initNow])] := by
  have hmax : ¬ (goAddDays 60 initNow < goZeroTime) := by
    unfold goZeroTime at h
    unfold goAddDays goZeroTime
    omega
  have hmin : validateMinTime initNow goZeroTime = "must be after " ++ toString initNow := by
    unfold validateMinTime
    rw [if_pos h]
  have hmaxmsg : validateMaxTime (goAddDays 60 initNow) goZeroTime = "" := by
    unfold validateMaxTime
    rw [if_neg hmax]
  have hmsg : ("must be after " ++ toString initNow) ≠ "" :=
    append_ne_empty_left _ _ (by decide)
  have hM : applyValidations
      (applyValidations
        (applyValidations
          (applyValidations ([] : ErrMap) "name" "" nameValidations)
          "name_katakana" "" nameKatakanaValidations)
        "phone_number" "" phoneNumberValidations)
      "amount" 0 amountValidations =
      [("name", ["must be longer than 1"]),
       ("name_katakana", ["must be longer than 1"]),
       ("phone_number", ["must be longer than 1", "invalid format"]),
       ("amount", ["must be greater than 1"])] := by decide
  show applyValidations
      (applyValidations
        (applyValidations
          (applyValidations
            (applyValidations ([] : ErrMap) "name" "" nameValidations)
            "name_katakana" "" nameKatakanaValidations)
          "phone_number" "" phoneNumberValidations)
        "amount" 0 amountValidations)
      "expiry" goZeroTime (expiryValidations initNow) = _
  rw [hM]
  unfold expiryValidations
  rw [applyValidations_cons, hmin, if_neg hmsg]
  rw [applyValidations_cons, hmaxmsg, if_pos rfl, applyValidations_nil]
  rfl

/-- Claim C6: for the zero-value `IssueInvoiceParams` (empty strings,
amount 0, zero-value expiry), `Errors()` has exactly 5 entries, keyed
name, name_katakana, phone_number, amount and expiry in insertion order,
each carrying a non-empty message list — provided the init clock is after
the `time.Time` zero value, as any real run is. -/
theorem c6_empty_params_five_errors (initNow : Int) (h : goZeroTime < initNow) :
    (issueInvoiceErrors initNow ⟨"", "", "", 0, goZeroTime⟩).map Prod.fst
        = ["name", "name_katakana", "phone_number", "amount", "expiry"]
    ∧ ∀ kv ∈ issueInvoiceErrors initNow ⟨"", "", "", 0, goZeroTime⟩, kv.2 ≠ [] := by
  rw [c6_empty_errors_eq initNow h]
  constructor
  · rfl
  · intro kv hkv
    simp only [List.mem_cons, List.not_mem_nil, or_false] at hkv
    rcases hkv with h1 | h1 | h1 | h1 | h1 <;> subst h1 <;> simp

theorem c6_empty_params_five_errors_witness :
    goZeroTime < 0
    ∧ ((issueInvoiceErrors 0 ⟨"", "", "", 0, goZeroTime⟩).map Prod.fst
        = ["name", "name_katakana", "phone_number", "amount", "expiry"]
    ∧ ∀ kv ∈ issueInvoiceErrors 0 ⟨"", "", "", 0, goZeroTime⟩, kv.2 ≠ []) :=
  ⟨by decide, c6_empty_params_five_errors 0 (by decide)⟩

end Fmart
